import Mathlib

/-!
Verification development for the discord-watchdog core: a shallow embedding
of the hysteresis state machine (`update_status` in src/status.rs), the
per-destination notification loop (`notify_status_change`), the status
message reconciler (`update_embed`), the template substitution
(`replace_templates`), the probe (`healthcheck` / `ping_task` in
src/ping.rs), and the persisted-state round trip (`SavedData.load_into` /
`SavedData.load_from` in src/lib.rs).

Discord identifiers (guild, channel, role, message ids) are modelled as
natural numbers; timestamps as natural numbers; the per-guild BTreeMap of
used messages as an association list with replace-on-insert.  External
fallible calls (channel fetch, message fetch/delete/send, DNS resolution,
the ICMP round trip) are modelled by explicit oracle arguments recording
the outcome of each call.
-/

/-- Mirror of `ResourceStatus` in src/lib.rs: `Up`, `Down`, default `Unknown`. -/
inductive ResourceStatus where
  | Up
  | Down
  | Unknown
deriving DecidableEq, Repr

/-- Mirror of `ServerUsedMessages` in src/lib.rs: the optional id of the
live status message of one guild. -/
structure ServerUsedMessages where
  status : Option Nat
deriving DecidableEq, Repr

/-- The `BTreeMap<GuildId, ServerUsedMessages>` of src/lib.rs, modelled as
an association list with unique keys maintained by replace-on-insert. -/
abbrev MsgMap : Type := List (Nat × ServerUsedMessages)

/-- `BTreeMap::get`-style lookup. -/
def mapLookup : MsgMap → Nat → Option ServerUsedMessages
  | [], _ => none
  | (k, v) :: rest, key => if k = key then some v else mapLookup rest key

/-- `BTreeMap::insert`: replaces the value when the key is present. -/
def mapInsert : MsgMap → Nat → ServerUsedMessages → MsgMap
  | [], k, v => [(k, v)]
  | (k', v') :: rest, k, v =>
      if k' = k then (k, v) :: rest else (k', v') :: mapInsert rest k v

/-- `messages_lock.entry(server_id).or_default()` of src/status.rs line 164:
returns the (possibly extended) map together with the entry's value. -/
def entryOrDefault (m : MsgMap) (k : Nat) : MsgMap × ServerUsedMessages :=
  match mapLookup m k with
  | some v => (m, v)
  | none => (mapInsert m k ⟨none⟩, ⟨none⟩)

/-- Mirror of `PingConfig` in src/lib.rs (durations in whole units). -/
structure PingConfig where
  resource_name : String
  resource_addr : String
  required_attempts_before_notification : Nat
  timeout : Nat
  interval_between_attempts : Nat
deriving DecidableEq, Repr

/-- Mirror of `ServerConfig` in src/lib.rs. -/
structure ServerConfig where
  name : String
  channel : Option Nat
  role_to_notify : Option Nat
  up_message : String
  down_message : String
deriving DecidableEq, Repr

/-- Mirror of `Config` in src/lib.rs (`server_configs` as an association
list keyed by guild id). -/
structure Config where
  master_server : Option Nat
  max_servers : Nat
  ping_config : PingConfig
  server_configs : List (Nat × ServerConfig)
deriving DecidableEq, Repr

/-- Mirror of the five fields of `AppData` in src/lib.rs. -/
structure AppData where
  status : ResourceStatus
  used_messages : MsgMap
  attempts_before_notification : Nat
  last_status_change : Nat
  config : Config
deriving DecidableEq, Repr

/-- Mirror of `SavedData` in src/lib.rs. -/
structure SavedData where
  status : ResourceStatus
  used_messages : MsgMap
  attempts_before_notification : Nat
  last_status_change : Nat
  config : Config
deriving DecidableEq, Repr

/-- `SavedData::load_into` (src/lib.rs lines 119-126): overwrite every
runtime field of `AppData` with the saved value. -/
def SavedData.load_into (s : SavedData) (d : AppData) : AppData :=
  { d with
    status := s.status
    used_messages := s.used_messages
    attempts_before_notification := s.attempts_before_notification
    last_status_change := s.last_status_change
    config := s.config }

/-- `SavedData::load_from` (src/lib.rs lines 127-135): snapshot every
runtime field of `AppData` into a `SavedData`. -/
def SavedData.load_from (d : AppData) : SavedData :=
  { status := d.status
    used_messages := d.used_messages
    attempts_before_notification := d.attempts_before_notification
    last_status_change := d.last_status_change
    config := d.config }

/-! ## Probe (src/ping.rs) -/

/-- The error cases of `surge_ping::SurgeError` that `healthcheck`
distinguishes: the timeout variant (with its sequence number) against
every other error (abstracted by a numeric code). -/
inductive SurgeError where
  | timeoutErr (seq : Nat)
  | otherErr (code : Nat)
deriving DecidableEq, Repr

/-- The failure cause with which the modelled `healthcheck` errors out. -/
inductive ProbeErr where
  | resolveErr
  | clientErr
  | otherPingErr
deriving DecidableEq, Repr

/-- `healthcheck` (src/ping.rs lines 52-87) over oracles for its three
external calls: `resolveRes` is the outcome of `resolve_ip`, `clientOk`
whether `surge_ping::Client::new` succeeded, `pingRes` the outcome of the
ICMP round trip (`.ok rtt` models the echo reply).  Returns `Ok(true)` on
a reply, `Ok(false)` on timeout, and an error otherwise. -/
def healthcheck (resolveRes : Option Nat) (clientOk : Bool)
    (pingRes : Except SurgeError Nat) : Except ProbeErr Bool :=
  match resolveRes with
  | none => .error .resolveErr
  | some _ =>
    if clientOk then
      match pingRes with
      | .ok _ => .ok true
      | .error (.timeoutErr _) => .ok false
      | .error (.otherErr _) => .error .otherPingErr
    else .error .clientErr

/-- The mapping the scheduler loop `ping_task` (src/ping.rs lines 33-45)
applies to the result of `healthcheck` to obtain the candidate status it
feeds to `update_status`. -/
def candidate_of (r : Except ProbeErr Bool) : ResourceStatus :=
  match r with
  | .ok true => .Up
  | .ok false => .Down
  | .error _ => .Unknown

/-! ## Status debouncer (`update_status`, src/status.rs lines 17-44) -/

/-- The slice of `AppData` that `update_status` reads and writes:
confirmed status, hysteresis counter (`attempts_before_notification`, a
wrapping `u8`), last-change timestamp and per-guild message pointers. -/
structure StState where
  status : ResourceStatus
  attempts : Nat
  lastChange : Nat
  used : MsgMap
deriving DecidableEq, Repr

/-- `update_status` (src/status.rs lines 17-44).  `threshold` is the
configured `required_attempts_before_notification`; `now` the value
`Timestamp::now()` would produce; `eff` the net effect of
`notify_status_change` on the used-messages map (an oracle, since that
call performs network I/O).  Returns the new state, `some (old, new)`
when `notify_status_change` was invoked with that pair, and whether
`save_data` was invoked.  `fetch_add(1, ..)` on the `AtomicU8` counter
returns the pre-increment value and stores the increment modulo 256. -/
def update_status (threshold now : Nat) (eff : MsgMap → MsgMap)
    (cand : ResourceStatus) (st : StState) :
    StState × Option (ResourceStatus × ResourceStatus) × Bool :=
  if cand = st.status then
    ({ st with attempts := 0 }, none, false)
  else
    let old := st.attempts
    if old ≥ threshold then
      let confirmed : StState :=
        { status := cand, attempts := 0, lastChange := now,
          used := eff st.used }
      (confirmed, some (st.status, cand), true)
    else
      ({ st with attempts := (old + 1) % 256 }, none, false)

/-- Feeding a list of raw candidate statuses through `update_status` one
by one, collecting the dispatcher invocations in order and counting the
`save_data` invocations. -/
def run_updates (threshold now : Nat) (eff : MsgMap → MsgMap) :
    List ResourceStatus → StState →
    StState × List (ResourceStatus × ResourceStatus) × Nat
  | [], st => (st, [], 0)
  | c :: cs, st =>
    ((run_updates threshold now eff cs (update_status threshold now eff c st).1).1,
     (update_status threshold now eff c st).2.1.toList ++
       (run_updates threshold now eff cs (update_status threshold now eff c st).1).2.1,
     (if (update_status threshold now eff c st).2.2 then 1 else 0) +
       (run_updates threshold now eff cs (update_status threshold now eff c st).1).2.2)

/-! ## Theorems: persisted-state round trip and probe classification -/

/-- C10: loading a `SavedData` into runtime state and reading the runtime
state back yields the original `SavedData`: all five persisted fields are
preserved. -/
theorem c10_load_roundtrip (s : SavedData) (d : AppData) :
    SavedData.load_from (s.load_into d) = s := by
  cases s
  rfl

/-- C7: `healthcheck` returns `Ok(true)` exactly when the echo reply
arrives (resolution and client construction succeeding), `Ok(false)`
exactly when the ping times out, and an error for every other failure
(resolution, transport construction, or any non-timeout ping error); the
scheduler maps these outcomes to candidates `Up`, `Down` and `Unknown`
respectively. -/
theorem c7_probe_classification (r : Option Nat) (c : Bool)
    (p : Except SurgeError Nat) :
    (healthcheck r c p = .ok true ↔
      (∃ ip rtt, r = some ip ∧ c = true ∧ p = .ok rtt))
    ∧ (healthcheck r c p = .ok false ↔
      (∃ ip s, r = some ip ∧ c = true ∧ p = .error (.timeoutErr s)))
    ∧ ((∃ e, healthcheck r c p = .error e) ↔
      (r = none ∨ c = false ∨ ∃ m, p = .error (.otherErr m)))
    ∧ (∀ x, candidate_of (.ok true) = .Up ∧ candidate_of (.ok false) = .Down
        ∧ candidate_of (.error x) = .Unknown) := by
  refine ⟨?_, ?_, ?_, fun x => ⟨rfl, rfl, rfl⟩⟩ <;>
    (rcases r with _ | ip
     · simp [healthcheck]
     · rcases c with _ | _
       · simp [healthcheck]
       · rcases p with se | rtt
         · rcases se with s | m <;> simp [healthcheck]
         · simp [healthcheck])

/-! ## Debouncer theorems (C1, C3) -/

/-- Helper: while the pre-increment counter stays below the threshold,
consecutive mismatching samples only step the counter. -/
theorem run_replicate_stay (t now : Nat) (eff : MsgMap → MsgMap)
    (oldS cand : ResourceStatus) (hne : cand ≠ oldS) (lc : Nat) (u : MsgMap)
    (ht : t < 256) :
    ∀ k j, j + k ≤ t →
      run_updates t now eff (List.replicate k cand) ⟨oldS, j, lc, u⟩ =
        (⟨oldS, j + k, lc, u⟩, [], 0) := by
  intro k
  induction k with
  | zero => intro j hj; simp [run_updates]
  | succ k ih =>
    intro j hj
    have hlt : ¬ (j ≥ t) := by omega
    have hmod : (j + 1) % 256 = j + 1 := Nat.mod_eq_of_lt (by omega)
    have hstep : update_status t now eff cand ⟨oldS, j, lc, u⟩ =
        (⟨oldS, j + 1, lc, u⟩, none, false) := by
      simp only [update_status]
      rw [if_neg (by simpa using hne), if_neg hlt]
      simp [hmod]
    rw [List.replicate_succ]
    simp only [run_updates]
    rw [hstep]
    have := ih (j + 1) (by omega)
    simp only [this]
    have harith : j + 1 + k = j + (k + 1) := by omega
    simp [harith]

/-- Helper: splitting a run of samples at an append. -/
theorem run_updates_append (t now : Nat) (eff : MsgMap → MsgMap)
    (xs ys : List ResourceStatus) (st : StState) :
    run_updates t now eff (xs ++ ys) st =
      ((run_updates t now eff ys (run_updates t now eff xs st).1).1,
       (run_updates t now eff xs st).2.1 ++
         (run_updates t now eff ys (run_updates t now eff xs st).1).2.1,
       (run_updates t now eff xs st).2.2 +
         (run_updates t now eff ys (run_updates t now eff xs st).1).2.2) := by
  induction xs generalizing st with
  | nil => simp [run_updates]
  | cons x xs ih =>
    simp only [List.cons_append, run_updates]
    simp [ih, List.append_assoc, Nat.add_assoc]

/-- C1 counterexample: with threshold 3 and confirmed status `Up`, three
consecutive `Unreachable` samples (candidate `Down`) leave the confirmed
status `Up` and never invoke the dispatcher — the flip is not confirmed
after the 3rd sample, because the code compares the pre-increment counter
value with the threshold. -/
theorem c1_counterexample :
    (run_updates 3 7 id
        [ResourceStatus.Down, ResourceStatus.Down, ResourceStatus.Down]
        ⟨ResourceStatus.Up, 0, 0, []⟩).1.status ≠ ResourceStatus.Down
    ∧ (run_updates 3 7 id
        [ResourceStatus.Down, ResourceStatus.Down, ResourceStatus.Down]
        ⟨ResourceStatus.Up, 0, 0, []⟩).2.1 = [] := by
  constructor <;> decide

/-- C1 amended: feeding consecutive mismatching samples from counter 0
confirms the flip exactly when the pre-increment counter value reaches
the threshold `t`, i.e. after the (t+1)-th sample: the first `t` samples
only step the counter and never dispatch, and the (t+1)-th sample sets
the confirmed status to the candidate, resets the counter to 0, stamps
the change and invokes the dispatcher exactly once with `(old, new)`
(so with threshold 3 and confirmed `Up`, four `Unreachable` samples make
the status `Down` after the 4th sample). -/
theorem c1_hysteresis_amended (t : Nat) (ht : t < 256)
    (oldS cand : ResourceStatus) (hne : cand ≠ oldS) (lc now : Nat)
    (u : MsgMap) (eff : MsgMap → MsgMap) :
    (∀ k, k ≤ t →
      run_updates t now eff (List.replicate k cand) ⟨oldS, 0, lc, u⟩ =
        (⟨oldS, k, lc, u⟩, [], 0))
    ∧ run_updates t now eff (List.replicate (t + 1) cand) ⟨oldS, 0, lc, u⟩ =
        (⟨cand, 0, now, eff u⟩, [(oldS, cand)], 1) := by
  constructor
  · intro k hk
    have := run_replicate_stay t now eff oldS cand hne lc u ht k 0 (by omega)
    simpa using this
  · rw [List.replicate_succ', run_updates_append]
    have hstay := run_replicate_stay t now eff oldS cand hne lc u ht t 0
      (by omega)
    simp only [Nat.zero_add] at hstay
    rw [hstay]
    have hconf : update_status t now eff cand ⟨oldS, t, lc, u⟩ =
        (⟨cand, 0, now, eff u⟩, some (oldS, cand), true) := by
      simp only [update_status]
      rw [if_neg (by simpa using hne), if_pos (le_refl t)]
    simp [run_updates, hconf]

/-- C1 amended, witness: threshold 3, confirmed `Up`, four `Down`
candidates: confirmed status becomes `Down` after the 4th sample, the
counter resets to 0, and the dispatcher is invoked exactly once with
`(Up, Down)`. -/
theorem c1_hysteresis_amended_witness :
    run_updates 3 7 id (List.replicate 4 ResourceStatus.Down)
        ⟨ResourceStatus.Up, 0, 9, []⟩ =
      (⟨ResourceStatus.Down, 0, 7, []⟩, [(ResourceStatus.Up,
        ResourceStatus.Down)], 1) :=
  (c1_hysteresis_amended 3 (by decide) ResourceStatus.Up ResourceStatus.Down
    (by decide) 9 7 [] id).2

/-- Helper for C3: any number of samples matching the confirmed status
only resets the counter, touching nothing else and never dispatching or
saving. -/
theorem run_replicate_same (t now : Nat) (eff : MsgMap → MsgMap)
    (cand : ResourceStatus) :
    ∀ (l : List ResourceStatus) (st : StState), cand = st.status →
      (∀ x ∈ l, x = cand) → l ≠ [] →
      run_updates t now eff l st = ({ st with attempts := 0 }, [], 0) := by
  intro l
  induction l with
  | nil => intro st _ _ h; exact absurd rfl h
  | cons c cs ih =>
    intro st h hall _
    have hc : c = cand := hall c (by simp)
    subst hc
    simp only [run_updates]
    have hstep : update_status t now eff c st =
        ({ st with attempts := 0 }, none, false) := by
      simp [update_status, h]
    rcases eq_or_ne cs [] with hcs | hcs
    · subst hcs
      simp [run_updates, hstep]
    · have hrec := ih { st with attempts := 0 } h
        (fun x hx => hall x (by simp [hx])) hcs
      simp [hstep, hrec]

/-- C3: when the candidate equals the confirmed status, `update_status`
resets the hysteresis counter to 0 and changes nothing else — confirmed
status, last-change timestamp and message pointers are untouched and
neither the dispatcher nor persistence is invoked — and the same holds
for any number of repeated such calls. -/
theorem c3_matching_sample_resets (t now : Nat) (eff : MsgMap → MsgMap)
    (st : StState) (cand : ResourceStatus) (h : cand = st.status) :
    update_status t now eff cand st = ({ st with attempts := 0 }, none, false)
    ∧ ∀ k, run_updates t now eff (List.replicate (k + 1) cand) st =
        ({ st with attempts := 0 }, [], 0) := by
  constructor
  · simp [update_status, h]
  · intro k
    exact run_replicate_same t now eff cand (List.replicate (k + 1) cand) st h
      (fun x hx => List.eq_of_mem_replicate hx) (by simp)

/-- C3 witness: five `Up` samples against confirmed `Up` with counter 2
leave everything unchanged but the counter (reset to 0), with no dispatch
and no save. -/
theorem c3_matching_sample_resets_witness :
    update_status 3 5 id ResourceStatus.Up ⟨ResourceStatus.Up, 2, 4, []⟩ =
      (⟨ResourceStatus.Up, 0, 4, []⟩, none, false)
    ∧ run_updates 3 5 id (List.replicate 5 ResourceStatus.Up)
        ⟨ResourceStatus.Up, 2, 4, []⟩ =
      (⟨ResourceStatus.Up, 0, 4, []⟩, [], 0) :=
  ⟨(c3_matching_sample_resets 3 5 id ⟨ResourceStatus.Up, 2, 4, []⟩
      ResourceStatus.Up rfl).1,
   (c3_matching_sample_resets 3 5 id ⟨ResourceStatus.Up, 2, 4, []⟩
      ResourceStatus.Up rfl).2 4⟩

/-! ## Message reconciler (`update_embed`, src/status.rs lines 154-261) -/

/-- `update_embed` (src/status.rs lines 154-261) over oracles for its
external calls: `fetchOk` is whether `http.get_message` succeeds for the
stored id, `deleteOk` whether `message.delete` succeeds, and `send` the
outcome of sending the new embed (`some nid` = created message id).
Returns the new map together with the list of message ids this call
deleted and the list it created. -/
def update_embed (sid : Nat) (m : MsgMap) (fetchOk deleteOk : Bool)
    (send : Option Nat) : MsgMap × List Nat × List Nat :=
  let p := entryOrDefault m sid
  match p.2.status with
  | some id =>
    if fetchOk then
      if deleteOk then
        match send with
        | some nid => (mapInsert p.1 sid ⟨some nid⟩, [id], [nid])
        | none => (p.1, [id], [])
      else (p.1, [], [])
    else
      match send with
      | some nid => (mapInsert p.1 sid ⟨some nid⟩, [], [nid])
      | none => (p.1, [], [])
  | none =>
    match send with
    | some nid => (mapInsert p.1 sid ⟨some nid⟩, [], [nid])
    | none => (p.1, [], [])

/-- Looking up a key just inserted yields the inserted value. -/
theorem mapLookup_mapInsert_self (m : MsgMap) (k : Nat)
    (v : ServerUsedMessages) : mapLookup (mapInsert m k v) k = some v := by
  induction m with
  | nil => simp [mapInsert, mapLookup]
  | cons kv rest ih =>
    rcases kv with ⟨k', v'⟩
    by_cases h : k' = k
    · subst h
      simp [mapInsert, mapLookup]
    · simp [mapInsert, mapLookup, h, ih]

/-- `entryOrDefault` leaves a present entry's map unchanged and reports
the stored value. -/
theorem entryOrDefault_of_lookup (m : MsgMap) (k : Nat)
    (v : ServerUsedMessages) (h : mapLookup m k = some v) :
    entryOrDefault m k = (m, v) := by
  simp [entryOrDefault, h]

/-- After `entryOrDefault`, looking the key up in the returned map gives
the returned value. -/
theorem entryOrDefault_lookup (m : MsgMap) (k : Nat) :
    mapLookup (entryOrDefault m k).1 k = some (entryOrDefault m k).2 := by
  unfold entryOrDefault
  cases h : mapLookup m k with
  | none => simp [mapLookup_mapInsert_self]
  | some v => simp [h]

/-- C2 counterexample: prior pointer 5, fetch and delete succeed, the new
send fails — the stored pointer still holds id 5, which is among the
messages this very call deleted: a dangling pointer created by the
component's own logic. -/
theorem c2_counterexample :
    mapLookup (update_embed 0 [(0, ⟨some 5⟩)] true true none).1 0 =
      some ⟨some 5⟩
    ∧ 5 ∈ (update_embed 0 [(0, ⟨some 5⟩)] true true none).2.1 := by
  constructor <;> decide

/-- C2 amended: after any reconciliation attempt the stored pointer is
either the unchanged prior value or the freshly created message (which
this call did not delete) — except that when the old message is deleted
and the subsequent send fails, the unchanged prior value now refers to a
message the component itself deleted.  `hfresh` states that a newly
created message id never equals the stored prior id. -/
theorem c2_pointer_amended (sid : Nat) (m : MsgMap) (fOk dOk : Bool)
    (send : Option Nat)
    (hfresh : ∀ nid, send = some nid →
      (entryOrDefault m sid).2.status ≠ some nid) :
    (mapLookup (update_embed sid m fOk dOk send).1 sid =
        some (entryOrDefault m sid).2
      ∨ ∃ nid, send = some nid
          ∧ mapLookup (update_embed sid m fOk dOk send).1 sid =
              some ⟨some nid⟩
          ∧ (update_embed sid m fOk dOk send).2.2 = [nid]
          ∧ nid ∉ (update_embed sid m fOk dOk send).2.1)
    ∧ (¬ ((entryOrDefault m sid).2.status ≠ none ∧ fOk = true ∧ dOk = true
          ∧ send = none) →
        ∀ id, mapLookup (update_embed sid m fOk dOk send).1 sid =
            some ⟨some id⟩ →
          id ∉ (update_embed sid m fOk dOk send).2.1) := by
  have hself := entryOrDefault_lookup m sid
  cases hst : (entryOrDefault m sid).2.status with
  | none =>
    have hv : (entryOrDefault m sid).2 = ⟨none⟩ := by
      cases hv' : (entryOrDefault m sid).2
      simp_all
    cases send with
    | none =>
      constructor
      · left
        simp [update_embed, hst, hself]
      · intro _ id hid
        simp [update_embed, hst]
    | some nid =>
      constructor
      · right
        exact ⟨nid, rfl, by simp [update_embed, hst, mapLookup_mapInsert_self],
          by simp [update_embed, hst], by simp [update_embed, hst]⟩
      · intro _ id hid
        simp [update_embed, hst]
  | some pid =>
    have hv : (entryOrDefault m sid).2 = ⟨some pid⟩ := by
      cases hv' : (entryOrDefault m sid).2
      simp_all
    cases fOk with
    | false =>
      cases send with
      | none =>
        constructor
        · left
          simp [update_embed, hst, hself]
        · intro _ id hid
          simp [update_embed, hst]
      | some nid =>
        constructor
        · right
          exact ⟨nid, rfl,
            by simp [update_embed, hst, mapLookup_mapInsert_self],
            by simp [update_embed, hst], by simp [update_embed, hst]⟩
        · intro _ id hid
          simp [update_embed, hst]
    | true =>
      cases dOk with
      | false =>
        constructor
        · left
          simp [update_embed, hst, hself]
        · intro _ id hid
          simp [update_embed, hst]
      | true =>
        cases send with
        | none =>
          constructor
          · left
            simp [update_embed, hst, hself, hv]
          · intro hguard
            exact absurd ⟨by simp [hst], rfl, rfl, rfl⟩ hguard
        | some nid =>
          have hne : nid ≠ pid := by
            intro h
            exact (hfresh nid rfl) (h ▸ hst)
          constructor
          · right
            exact ⟨nid, rfl,
              by simp [update_embed, hst, mapLookup_mapInsert_self],
              by simp [update_embed, hst], by simp [update_embed, hst, hne]⟩
          · intro _ id hid
            have : id = nid := by
              have := hid
              simp [update_embed, hst, mapLookup_mapInsert_self] at this
              exact this.symm
            subst this
            simp [update_embed, hst, hne]

/-- C2 amended, witness: prior pointer 5, fetch fails, send succeeds with
fresh id 9 — the pointer afterwards is the new message, not deleted by
this call. -/
theorem c2_pointer_amended_witness :
    mapLookup (update_embed 1 [(1, ⟨some 5⟩)] false true (some 9)).1 1 =
      some (entryOrDefault [(1, ⟨some 5⟩)] 1).2
    ∨ ∃ nid, (some 9 : Option Nat) = some nid
        ∧ mapLookup (update_embed 1 [(1, ⟨some 5⟩)] false true (some 9)).1 1 =
            some ⟨some nid⟩
        ∧ (update_embed 1 [(1, ⟨some 5⟩)] false true (some 9)).2.2 = [nid]
        ∧ nid ∉ (update_embed 1 [(1, ⟨some 5⟩)] false true (some 9)).2.1 :=
  (c2_pointer_amended 1 [(1, ⟨some 5⟩)] false true (some 9) (by decide)).1

/-- C5: with a stored prior pointer, (a) fetch success followed by delete
failure aborts with the map unchanged, nothing deleted and nothing
created; (b) fetch failure followed by send success creates exactly one
message whose id overwrites the pointer; (c) in every branch a failed (or
never attempted) send leaves the pointer at its prior value. -/
theorem c5_reconcile_failure_branches (sid : Nat) (m : MsgMap) (pid : Nat)
    (hprior : mapLookup m sid = some ⟨some pid⟩) (fOk dOk : Bool)
    (send : Option Nat) :
    (fOk = true → dOk = false →
      update_embed sid m fOk dOk send = (m, [], []))
    ∧ (fOk = false → ∀ nid, send = some nid →
        (update_embed sid m fOk dOk send).2.2 = [nid]
        ∧ mapLookup (update_embed sid m fOk dOk send).1 sid = some ⟨some nid⟩)
    ∧ (send = none →
        mapLookup (update_embed sid m fOk dOk send).1 sid =
          some ⟨some pid⟩) := by
  have heod := entryOrDefault_of_lookup m sid ⟨some pid⟩ hprior
  refine ⟨?_, ?_, ?_⟩
  · intro h1 h2
    subst h1
    subst h2
    cases send <;> simp [update_embed, heod]
  · intro h1 nid h2
    subst h1
    subst h2
    constructor <;> simp [update_embed, heod, mapLookup_mapInsert_self]
  · intro h
    subst h
    cases fOk <;> cases dOk <;> simp [update_embed, heod, hprior]

/-- C5 witness: prior pointer 7, fetch succeeds, delete fails — the
reconciliation aborts with map, deletions and creations untouched. -/
theorem c5_reconcile_failure_branches_witness :
    update_embed 2 [(2, ⟨some 7⟩)] true false (some 3) =
      ([(2, ⟨some 7⟩)], [], []) :=
  (c5_reconcile_failure_branches 2 [(2, ⟨some 7⟩)] 7 (by decide) true false
    (some 3)).1 rfl rfl

/-! ## Notification dispatcher (`notify_status_change`,
src/status.rs lines 46-152) -/

/-- Per-destination oracle for the external calls the dispatcher makes:
`channelFetch` the outcome of `http.get_channel` (the fetched channel's
id), `announceSend` the outcome of sending the transition announcement
(the created message id), and the three `update_embed` oracles. -/
structure DestOracle where
  channelFetch : Option Nat
  announceSend : Option Nat
  embedFetchOk : Bool
  embedDeleteOk : Bool
  embedSend : Option Nat
deriving DecidableEq, Repr

/-- What happened to one destination during a dispatch pass. -/
inductive DestResult where
  | noChannel
  | channelFetchFailed
  | announceFailed (content : List Char)
  | reconciled (announcement : Option (Nat × List Char))
deriving DecidableEq, Repr

/-- `ROLE_FALLBACK_STRING` of src/status.rs. -/
def ROLE_FALLBACK_STRING : List Char := "people".data

/-- `TEMPLATE_RESOURCE_NAME` of src/status.rs. -/
def TEMPLATE_RESOURCE_NAME : List Char := "%%RESOURCE%%".data

/-- `TEMPLATE_ROLE_PING` of src/status.rs. -/
def TEMPLATE_ROLE_PING : List Char := "%%ROLE%%".data

/-- One digit of a base-10 number, as in Rust's `Display` for ids. -/
def digitChar (d : Nat) : Char :=
  if d = 0 then '0' else if d = 1 then '1' else if d = 2 then '2'
  else if d = 3 then '3' else if d = 4 then '4' else if d = 5 then '5'
  else if d = 6 then '6' else if d = 7 then '7' else if d = 8 then '8'
  else '9'

/-- Base-10 digit expansion of a natural number, most significant digit
first, with bounded recursion on a fuel argument. -/
def natDigitsAux : Nat → Nat → List Char
  | 0, _ => []
  | fuel + 1, n =>
    if n < 10 then [digitChar n]
    else natDigitsAux fuel (n / 10) ++ [digitChar (n % 10)]

/-- Decimal rendering of an id, as Rust's `format!("{}", id)` yields. -/
def natDigits (n : Nat) : List Char := natDigitsAux (n + 1) n

/-- Rust's `str::replace` for a non-empty pattern: scan left to right,
replacing each leftmost non-overlapping occurrence of `pat` by `rep`.
The fuel argument (instantiated with the string length) bounds the
recursion; both patterns used by the source are non-empty, for which the
model is exact. -/
def replaceAllAux : Nat → List Char → List Char → List Char → List Char
  | 0, s, _, _ => s
  | fuel + 1, s, pat, rep =>
    match s with
    | [] => []
    | c :: rest =>
      if pat.isPrefixOf (c :: rest) then
        rep ++ replaceAllAux fuel ((c :: rest).drop pat.length) pat rep
      else
        c :: replaceAllAux fuel rest pat rep

/-- `s.replace(pat, rep)` on character lists. -/
def replaceAll (s pat rep : List Char) : List Char :=
  replaceAllAux s.length s pat rep

/-- The `role_ping` computed by `replace_templates` (src/status.rs lines
300-305): the mention `<@&id>` rendered with the id's decimal digits, or
the fallback word when no role is configured. -/
def role_ping_of (role_id : Option Nat) : List Char :=
  match role_id with
  | some id => ['<', '@', '&'] ++ natDigits id ++ ['>']
  | none => ROLE_FALLBACK_STRING

/-- `replace_templates` (src/status.rs lines 299-309): substitute the
resource-name placeholder, then the role placeholder. -/
def replace_templates (message resource_name : List Char)
    (role_id : Option Nat) : List Char :=
  replaceAll (replaceAll message TEMPLATE_RESOURCE_NAME resource_name)
    TEMPLATE_ROLE_PING (role_ping_of role_id)

/-- The body of the destination loop of `notify_status_change`
(src/status.rs lines 59-149) for a single destination: resolve the
channel, classify the transition, send the announcement where required,
and reconcile the status embed.  `none` models the `unreachable!()`
panic. -/
def notify_one (old new : ResourceStatus) (resource_name : List Char)
    (cfg : ServerConfig) (orc : DestOracle) (sid : Nat) (m : MsgMap) :
    Option (DestResult × MsgMap) :=
  match cfg.channel with
  | none => some (.noChannel, m)
  | some _ =>
    match orc.channelFetch with
    | none => some (.channelFetchFailed, m)
    | some _ =>
      match old, new with
      | _, .Unknown =>
        some (.reconciled none,
          (update_embed sid m orc.embedFetchOk orc.embedDeleteOk
            orc.embedSend).1)
      | .Unknown, _ =>
        some (.reconciled none,
          (update_embed sid m orc.embedFetchOk orc.embedDeleteOk
            orc.embedSend).1)
      | .Up, .Down =>
        let msg := replace_templates cfg.down_message.data resource_name
          cfg.role_to_notify
        match orc.announceSend with
        | some aid =>
          some (.reconciled (some (aid, msg)),
            (update_embed sid m orc.embedFetchOk orc.embedDeleteOk
              orc.embedSend).1)
        | none => some (.announceFailed msg, m)
      | .Down, .Up =>
        let msg := replace_templates cfg.up_message.data resource_name
          cfg.role_to_notify
        match orc.announceSend with
        | some aid =>
          some (.reconciled (some (aid, msg)),
            (update_embed sid m orc.embedFetchOk orc.embedDeleteOk
              orc.embedSend).1)
        | none => some (.announceFailed msg, m)
      | _, _ => none

/-- The full destination loop of `notify_status_change`: iterate the
configured destinations in order, threading the used-messages map.
`none` models a panic aborting the pass. -/
def notify_all (old new : ResourceStatus) (resource_name : List Char)
    (ds : List (Nat × ServerConfig)) (orc : Nat → DestOracle) (m : MsgMap) :
    Option (List (Nat × DestResult) × MsgMap) :=
  match ds with
  | [] => some ([], m)
  | (sid, cfg) :: rest =>
    match notify_one old new resource_name cfg (orc sid) sid m with
    | none => none
    | some (r, m') =>
      match notify_all old new resource_name rest orc m' with
      | none => none
      | some (rs, mf) => some ((sid, r) :: rs, mf)

/-- Helper: for `old ≠ new` the transition match of the loop body always
lands in one of the four handled arms, never in the panic arm. -/
theorem notify_one_total (old new : ResourceStatus) (rn : List Char)
    (cfg : ServerConfig) (orc : DestOracle) (sid : Nat) (m : MsgMap)
    (hne : old ≠ new) :
    (notify_one old new rn cfg orc sid m).isSome = true := by
  unfold notify_one
  cases h1 : cfg.channel with
  | none => simp
  | some ch =>
    cases h2 : orc.channelFetch with
    | none => simp
    | some c =>
      cases old <;> cases new <;>
        first
          | exact absurd rfl hne
          | (cases h3 : orc.announceSend <;> simp [h3])

/-- Helper: the per-destination result (first component) of the loop
body does not depend on the used-messages map it is given. -/
theorem notify_one_map_indep (old new : ResourceStatus) (rn : List Char)
    (cfg : ServerConfig) (orc : DestOracle) (sid : Nat) (m m' : MsgMap) :
    (notify_one old new rn cfg orc sid m).map Prod.fst =
      (notify_one old new rn cfg orc sid m').map Prod.fst := by
  unfold notify_one
  cases cfg.channel <;> cases orc.channelFetch <;> cases old <;> cases new <;>
    cases orc.announceSend <;> rfl

/-- C9: under the precondition `old ≠ new`, the transition-classification
match of `notify_status_change` never reaches its `unreachable!()` arm:
the four handled pairings cover every pair of distinct statuses. -/
theorem c9_unreachable_never_hit (old new : ResourceStatus)
    (rn : List Char) (cfg : ServerConfig) (orc : DestOracle) (sid : Nat)
    (m : MsgMap) (hne : old ≠ new) :
    (notify_one old new rn cfg orc sid m).isSome = true :=
  notify_one_total old new rn cfg orc sid m hne

/-- C9 witness at the concrete pair `(Up, Down)`. -/
theorem c9_unreachable_never_hit_witness :
    (notify_one ResourceStatus.Up ResourceStatus.Down "API".data
      ⟨"s", some 1, none, "u", "d"⟩ ⟨some 1, some 2, true, true, some 3⟩
      0 []).isSome = true :=
  c9_unreachable_never_hit ResourceStatus.Up ResourceStatus.Down "API".data
    ⟨"s", some 1, none, "u", "d"⟩ ⟨some 1, some 2, true, true, some 3⟩
    0 [] (by decide)

/-- C4: with the channel configured and fetched, a dispatch with
`old ≠ new` is classified by case: target `Unknown` or source `Unknown`
reconcile the embed only with no announcement; `Up → Down` sends the
template-substituted down-message and then reconciles; `Down → Up` sends
the template-substituted up-message and then reconciles; a failed
announcement send skips the embed reconciliation, leaving the map
untouched. -/
theorem c4_transition_classification (old new : ResourceStatus)
    (rn : List Char) (cfg : ServerConfig) (orc : DestOracle) (sid : Nat)
    (m : MsgMap) (ch : Nat) (hch : cfg.channel = some ch)
    (hcf : ∃ c, orc.channelFetch = some c) (hne : old ≠ new) :
    (new = .Unknown →
      notify_one old new rn cfg orc sid m =
        some (.reconciled none,
          (update_embed sid m orc.embedFetchOk orc.embedDeleteOk
            orc.embedSend).1))
    ∧ (old = .Unknown →
      notify_one old new rn cfg orc sid m =
        some (.reconciled none,
          (update_embed sid m orc.embedFetchOk orc.embedDeleteOk
            orc.embedSend).1))
    ∧ (old = .Up → new = .Down →
        (∀ aid, orc.announceSend = some aid →
          notify_one old new rn cfg orc sid m =
            some (.reconciled (some (aid,
              replace_templates cfg.down_message.data rn cfg.role_to_notify)),
              (update_embed sid m orc.embedFetchOk orc.embedDeleteOk
                orc.embedSend).1))
        ∧ (orc.announceSend = none →
          notify_one old new rn cfg orc sid m =
            some (.announceFailed
              (replace_templates cfg.down_message.data rn cfg.role_to_notify),
              m)))
    ∧ (old = .Down → new = .Up →
        (∀ aid, orc.announceSend = some aid →
          notify_one old new rn cfg orc sid m =
            some (.reconciled (some (aid,
              replace_templates cfg.up_message.data rn cfg.role_to_notify)),
              (update_embed sid m orc.embedFetchOk orc.embedDeleteOk
                orc.embedSend).1))
        ∧ (orc.announceSend = none →
          notify_one old new rn cfg orc sid m =
            some (.announceFailed
              (replace_templates cfg.up_message.data rn cfg.role_to_notify),
              m))) := by
  obtain ⟨c, hc⟩ := hcf
  refine ⟨?_, ?_, ?_, ?_⟩
  · intro h
    subst h
    cases old <;> simp [notify_one, hch, hc]
  · intro h
    subst h
    cases new with
    | Unknown => exact absurd rfl hne
    | Up => simp [notify_one, hch, hc]
    | Down => simp [notify_one, hch, hc]
  · intro h1 h2
    subst h1
    subst h2
    constructor
    · intro aid ha
      simp [notify_one, hch, hc, ha]
    · intro ha
      simp [notify_one, hch, hc, ha]
  · intro h1 h2
    subst h1
    subst h2
    constructor
    · intro aid ha
      simp [notify_one, hch, hc, ha]
    · intro ha
      simp [notify_one, hch, hc, ha]

/-- C4 witness: `Up → Down` with a configured role, announcement send
succeeding with id 2 — the down-message is template-substituted, sent,
and the embed reconciled. -/
theorem c4_transition_classification_witness :
    notify_one ResourceStatus.Up ResourceStatus.Down "API".data
      ⟨"s", some 1, some 42, "u", "d"⟩ ⟨some 1, some 2, true, true, some 3⟩
      0 [] =
      some (.reconciled (some (2,
        replace_templates "d".data "API".data (some 42))),
        (update_embed 0 [] true true (some 3)).1) :=
  ((c4_transition_classification ResourceStatus.Up ResourceStatus.Down
      "API".data ⟨"s", some 1, some 42, "u", "d"⟩
      ⟨some 1, some 2, true, true, some 3⟩ 0 [] 1 rfl ⟨1, rfl⟩
      (by decide)).2.2.1 rfl rfl).1 2 rfl

/-- C6: for every destination list and every pattern of per-destination
failures, a dispatch with `old ≠ new` processes every destination: the
result list has one entry per destination, in order, and each entry is
exactly what processing that destination alone from the initial map
produces — no destination's failure aborts or alters the others'
outcomes. -/
theorem c6_destination_isolation (old new : ResourceStatus)
    (rn : List Char) (ds : List (Nat × ServerConfig))
    (orc : Nat → DestOracle) (m : MsgMap) (hne : old ≠ new) :
    ∃ (rs : List (Nat × DestResult)) (mf : MsgMap),
      notify_all old new rn ds orc m = some (rs, mf)
      ∧ rs.length = ds.length
      ∧ ∀ (i : Nat) (sid : Nat) (cfg : ServerConfig),
          ds[i]? = some (sid, cfg) →
          ∃ r m', notify_one old new rn cfg (orc sid) sid m = some (r, m')
            ∧ rs[i]? = some (sid, r) := by
  induction ds generalizing m with
  | nil =>
    refine ⟨[], m, rfl, rfl, ?_⟩
    intro i sid cfg h
    simp at h
  | cons d rest ih =>
    rcases d with ⟨sid, cfg⟩
    have htot := notify_one_total old new rn cfg (orc sid) sid m hne
    rw [Option.isSome_iff_exists] at htot
    obtain ⟨⟨r, m1⟩, hr⟩ := htot
    obtain ⟨rs, mf, hall, hlen, hidx⟩ := ih m1
    refine ⟨(sid, r) :: rs, mf, ?_, by simp [hlen], ?_⟩
    · simp [notify_all, hr, hall]
    · intro i sid' cfg' hi
      cases i with
      | zero =>
        simp only [List.getElem?_cons_zero, Option.some.injEq,
          Prod.mk.injEq] at hi
        obtain ⟨h1, h2⟩ := hi
        subst h1
        subst h2
        exact ⟨r, m1, hr, by simp⟩
      | succ i =>
        simp only [List.getElem?_cons_succ] at hi
        obtain ⟨r', m'', hr', hrs⟩ := hidx i sid' cfg' hi
        have hind := notify_one_map_indep old new rn cfg' (orc sid') sid' m m1
        rw [hr'] at hind
        cases hm : notify_one old new rn cfg' (orc sid') sid' m with
        | none => rw [hm] at hind; simp at hind
        | some p =>
          rcases p with ⟨r'', m3⟩
          rw [hm] at hind
          simp at hind
          refine ⟨r'', m3, rfl, ?_⟩
          simp only [List.getElem?_cons_succ]
          rw [hrs, hind]

/-- C6 witness: two destinations, the first with no channel configured,
the second fully succeeding — both are processed, in order. -/
theorem c6_destination_isolation_witness :
    ∃ (rs : List (Nat × DestResult)) (mf : MsgMap),
      notify_all ResourceStatus.Up ResourceStatus.Down "API".data
        [(1, ⟨"a", none, none, "u", "d"⟩),
         (2, ⟨"b", some 5, none, "u", "d"⟩)]
        (fun _ => ⟨some 9, some 8, true, true, some 7⟩) [] = some (rs, mf)
      ∧ rs.length =
          [(1, (⟨"a", none, none, "u", "d"⟩ : ServerConfig)),
           (2, ⟨"b", some 5, none, "u", "d"⟩)].length
      ∧ ∀ (i : Nat) (sid : Nat) (cfg : ServerConfig),
          [(1, (⟨"a", none, none, "u", "d"⟩ : ServerConfig)),
           (2, ⟨"b", some 5, none, "u", "d"⟩)][i]? = some (sid, cfg) →
          ∃ r m', notify_one ResourceStatus.Up ResourceStatus.Down "API".data
              cfg ((fun _ => (⟨some 9, some 8, true, true, some 7⟩ :
                DestOracle)) sid) sid [] = some (r, m')
            ∧ rs[i]? = some (sid, r) :=
  c6_destination_isolation ResourceStatus.Up ResourceStatus.Down "API".data
    [(1, ⟨"a", none, none, "u", "d"⟩), (2, ⟨"b", some 5, none, "u", "d"⟩)]
    (fun _ => ⟨some 9, some 8, true, true, some 7⟩) [] (by decide)

/-! ## Occurrence lemmas for the template substitution (C8) -/

/-- `pat` occurs at the start of `s`. -/
def startsL (pat s : List Char) : Prop := ∃ t, s = pat ++ t

/-- `pat` occurs somewhere in `s` (Rust's `str::contains`). -/
def occursIn (pat s : List Char) : Prop := ∃ l r, s = l ++ pat ++ r

/-- The boolean scan of `replaceAllAux` agrees with `startsL`. -/
theorem isPrefixOf_iff_startsL :
    ∀ pat s : List Char, pat.isPrefixOf s = true ↔ startsL pat s := by
  intro pat
  induction pat with
  | nil =>
    intro s
    constructor
    · intro _
      exact ⟨s, rfl⟩
    · intro _
      cases s <;> rfl
  | cons p ps ih =>
    intro s
    cases s with
    | nil =>
      constructor
      · intro h
        simp [List.isPrefixOf] at h
      · rintro ⟨t, ht⟩
        simp at ht
    | cons c cs =>
      constructor
      · intro h
        simp only [List.isPrefixOf, Bool.and_eq_true, beq_iff_eq] at h
        obtain ⟨rfl, h2⟩ := h
        obtain ⟨t, ht⟩ := (ih cs).mp h2
        exact ⟨t, by simp [ht]⟩
      · rintro ⟨t, ht⟩
        simp only [List.cons_append, List.cons.injEq] at ht
        obtain ⟨rfl, h2⟩ := ht
        have hps : ps.isPrefixOf cs = true := (ih cs).mpr ⟨t, h2⟩
        simp [List.isPrefixOf, hps]

/-- Nothing non-empty occurs in the empty string. -/
theorem occursIn_nil_eq (pat : List Char) (h : occursIn pat []) :
    pat = [] := by
  obtain ⟨l, r, heq⟩ := h
  have h2 := List.append_eq_nil.mp heq.symm
  exact (List.append_eq_nil.mp h2.1).2

/-- Occurrence is preserved by extending on the left with one element. -/
theorem occursIn_cons (pat : List Char) (c : Char) (s : List Char)
    (h : occursIn pat s) : occursIn pat (c :: s) := by
  obtain ⟨l, r, heq⟩ := h
  exact ⟨c :: l, r, by simp [heq]⟩

/-- Occurrence is preserved by extending on the left. -/
theorem occursIn_append_left (pat A s : List Char)
    (h : occursIn pat s) : occursIn pat (A ++ s) := by
  obtain ⟨l, r, heq⟩ := h
  exact ⟨A ++ l, r, by simp [heq]⟩

/-- An occurrence in a suffix is an occurrence. -/
theorem occursIn_of_drop (pat s : List Char) (n : Nat)
    (h : occursIn pat (s.drop n)) : occursIn pat s := by
  have h2 := occursIn_append_left pat (s.take n) (s.drop n) h
  rwa [List.take_append_drop] at h2

/-- A start is an occurrence. -/
theorem occursIn_of_startsL (pat s : List Char) (h : startsL pat s) :
    occursIn pat s := by
  obtain ⟨t, ht⟩ := h
  exact ⟨[], t, by simp [ht]⟩

/-- An occurrence in `c :: s` either starts at `c` or lies in `s`. -/
theorem occursIn_cons_elim (pat : List Char) (c : Char) (s : List Char)
    (h : occursIn pat (c :: s)) :
    startsL pat (c :: s) ∨ occursIn pat s := by
  obtain ⟨l, r, heq⟩ := h
  cases l with
  | nil => exact Or.inl ⟨r, by simpa using heq⟩
  | cons a l' =>
    simp only [List.cons_append, List.cons.injEq] at heq
    exact Or.inr ⟨l', r, heq.2⟩

/-- An occurrence of `pat` cannot begin inside a block sharing no
characters with `pat`: it must lie beyond the block. -/
theorem occursIn_of_append_disjoint (pat : List Char) (hpat : pat ≠ []) :
    ∀ (blk R : List Char), (∀ c ∈ blk, c ∉ pat) →
      occursIn pat (blk ++ R) → occursIn pat R := by
  intro blk
  induction blk with
  | nil =>
    intro R _ h
    simpa using h
  | cons b blk' ih =>
    intro R hdisj h
    rcases occursIn_cons_elim pat b (blk' ++ R) (by simpa using h) with
      hs | ho
    · obtain ⟨t, ht⟩ := hs
      cases pat with
      | nil => exact absurd rfl hpat
      | cons p ps =>
        simp only [List.cons_append, List.cons.injEq] at ht
        have hb : b ∈ b :: blk' := by simp
        exact absurd (by simp [ht.1]) (hdisj b hb)
    · exact ih R (fun c hc => hdisj c (by simp [hc])) ho

/-- A non-empty string of characters absent from `rep` that starts the
output of the scan must already start the input (`rep` blocks are skipped
whole, kept characters are copied). -/
theorem startsL_replaceAllAux (pat rep : List Char) (hrep : rep ≠ []) :
    ∀ (fuel : Nat) (s q : List Char), q ≠ [] → (∀ c ∈ q, c ∉ rep) →
      startsL q (replaceAllAux fuel s pat rep) → startsL q s := by
  intro fuel
  induction fuel with
  | zero =>
    intro s q _ _ h
    exact h
  | succ fuel ih =>
    intro s q hq hdisj h
    cases s with
    | nil =>
      obtain ⟨t, ht⟩ := h
      simp only [replaceAllAux] at ht
      cases q with
      | nil => exact absurd rfl hq
      | cons q0 q' => simp at ht
    | cons c rest =>
      by_cases hp : pat.isPrefixOf (c :: rest) = true
      · simp only [replaceAllAux, hp, if_true] at h
        obtain ⟨t, ht⟩ := h
        cases q with
        | nil => exact absurd rfl hq
        | cons q0 q' =>
          cases rep with
          | nil => exact absurd rfl hrep
          | cons r0 rep' =>
            simp only [List.cons_append, List.cons.injEq] at ht
            have : q0 ∈ q0 :: q' := by simp
            exact absurd (by simp [ht.1]) (hdisj q0 this)
      · simp only [replaceAllAux] at h
        rw [if_neg hp] at h
        obtain ⟨t, ht⟩ := h
        cases q with
        | nil => exact absurd rfl hq
        | cons q0 q' =>
          simp only [List.cons_append, List.cons.injEq] at ht
          have hcq := ht.1
          have h2 := ht.2
          clear ht
          cases q' with
          | nil => exact ⟨rest, by simp [hcq]⟩
          | cons a q'' =>
            have hsub : ∀ x ∈ a :: q'', x ∉ rep :=
              fun x hx => hdisj x (by simp [hx])
            obtain ⟨t', ht'⟩ := ih rest (a :: q'') (by simp) hsub ⟨t, h2⟩
            exact ⟨t', by simp [hcq, ht']⟩

/-- After replacing every leftmost non-overlapping occurrence of the
non-empty pattern `pat` by a non-empty replacement sharing no character
with `pat`, the pattern no longer occurs. -/
theorem not_occursIn_replaceAllAux (pat rep : List Char) (hpat : pat ≠ [])
    (hrep : rep ≠ []) (hdisj : ∀ c ∈ rep, c ∉ pat) :
    ∀ (fuel : Nat) (s : List Char), s.length ≤ fuel →
      ¬ occursIn pat (replaceAllAux fuel s pat rep) := by
  intro fuel
  induction fuel with
  | zero =>
    intro s hs h
    have hnil : s = [] := List.length_eq_zero.mp (Nat.le_zero.mp hs)
    subst hnil
    exact hpat (occursIn_nil_eq pat (by simpa [replaceAllAux] using h))
  | succ fuel ih =>
    intro s hs h
    cases s with
    | nil =>
      exact hpat (occursIn_nil_eq pat (by simpa [replaceAllAux] using h))
    | cons c rest =>
      by_cases hp : pat.isPrefixOf (c :: rest) = true
      · simp only [replaceAllAux, hp, if_true] at h
        have h2 := occursIn_of_append_disjoint pat hpat rep _ hdisj h
        have hpl : 1 ≤ pat.length := by
          cases pat with
          | nil => exact absurd rfl hpat
          | cons _ _ => simp
        have hlen : ((c :: rest).drop pat.length).length ≤ fuel := by
          simp only [List.length_drop, List.length_cons]
          simp only [List.length_cons] at hs
          omega
        exact ih _ hlen h2
      · simp only [replaceAllAux] at h
        rw [if_neg hp] at h
        rcases occursIn_cons_elim pat c _ h with hst | ho
        · obtain ⟨t, ht⟩ := hst
          cases pat with
          | nil => exact hpat rfl
          | cons p0 ps =>
            simp only [List.cons_append, List.cons.injEq] at ht
            cases ps with
            | nil =>
              apply hp
              rw [isPrefixOf_iff_startsL]
              exact ⟨rest, by simp [ht.1]⟩
            | cons p1 ps' =>
              have hsub : ∀ x ∈ p1 :: ps', x ∉ rep := by
                intro x hx hxr
                exact hdisj x hxr (by simp [hx])
              obtain ⟨t2, ht2⟩ := startsL_replaceAllAux (p0 :: p1 :: ps')
                rep hrep fuel rest (p1 :: ps') (by simp) hsub ⟨t, ht.2⟩
              apply hp
              rw [isPrefixOf_iff_startsL]
              exact ⟨t2, by simp [ht.1, ht2]⟩
        · exact ih rest (by simpa using hs) ho

/-- Replacement with a block sharing no character with `q` cannot create
a new occurrence of `q`. -/
theorem not_occursIn_replaceAllAux_of_not (q pat rep : List Char)
    (hq : q ≠ []) (hrep : rep ≠ []) (hdisj : ∀ c ∈ rep, c ∉ q) :
    ∀ (fuel : Nat) (s : List Char), ¬ occursIn q s →
      ¬ occursIn q (replaceAllAux fuel s pat rep) := by
  intro fuel
  induction fuel with
  | zero =>
    intro s hs h
    exact hs h
  | succ fuel ih =>
    intro s hs h
    cases s with
    | nil => exact hq (occursIn_nil_eq q (by simpa [replaceAllAux] using h))
    | cons c rest =>
      by_cases hp : pat.isPrefixOf (c :: rest) = true
      · simp only [replaceAllAux, hp, if_true] at h
        have h2 := occursIn_of_append_disjoint q hq rep _ hdisj h
        have hnd : ¬ occursIn q ((c :: rest).drop pat.length) :=
          fun hx => hs (occursIn_of_drop q (c :: rest) pat.length hx)
        exact ih _ hnd h2
      · simp only [replaceAllAux] at h
        rw [if_neg hp] at h
        rcases occursIn_cons_elim q c _ h with hst | ho
        · obtain ⟨t, ht⟩ := hst
          cases q with
          | nil => exact hq rfl
          | cons q0 q' =>
            simp only [List.cons_append, List.cons.injEq] at ht
            cases q' with
            | nil => exact hs ⟨[], rest, by simp [ht.1]⟩
            | cons a q'' =>
              have hsub : ∀ x ∈ a :: q'', x ∉ rep := by
                intro x hx hxr
                exact hdisj x hxr (by simp [hx])
              obtain ⟨t2, ht2⟩ := startsL_replaceAllAux pat rep hrep fuel
                rest (a :: q'') (by simp) hsub ⟨t, ht.2⟩
              exact hs ⟨[], t2, by simp [ht.1, ht2]⟩
        · exact ih rest (fun hx => hs (occursIn_cons q c rest hx)) ho

/-- `digitChar` only produces decimal digit characters. -/
theorem digitChar_mem_digits (n : Nat) :
    digitChar n ∈ ['0', '1', '2', '3', '4', '5', '6', '7', '8', '9'] := by
  unfold digitChar
  split_ifs <;> decide

/-- Every character of a decimal rendering is a digit character. -/
theorem mem_natDigitsAux_digits :
    ∀ (fuel n : Nat) (c : Char), c ∈ natDigitsAux fuel n →
      c ∈ ['0', '1', '2', '3', '4', '5', '6', '7', '8', '9'] := by
  intro fuel
  induction fuel with
  | zero =>
    intro n c hc
    simp [natDigitsAux] at hc
  | succ fuel ih =>
    intro n c hc
    by_cases hn : n < 10
    · simp only [natDigitsAux, hn, if_true, List.mem_singleton] at hc
      exact hc ▸ digitChar_mem_digits n
    · simp only [natDigitsAux, hn, if_false, List.mem_append,
        List.mem_singleton] at hc
      rcases hc with hc | hc
      · exact ih (n / 10) c hc
      · exact hc ▸ digitChar_mem_digits (n % 10)

/-- No character of the mention/fallback text occurs in the role
placeholder token. -/
theorem mem_role_ping_not_role (role : Option Nat) :
    ∀ c ∈ role_ping_of role, c ∉ TEMPLATE_ROLE_PING := by
  cases role with
  | none => decide
  | some id =>
    intro c hc
    simp only [role_ping_of, List.mem_append] at hc
    have hdig : ∀ x ∈ ['0', '1', '2', '3', '4', '5', '6', '7', '8', '9'],
        x ∉ TEMPLATE_ROLE_PING := by decide
    rcases hc with (hc | hc) | hc
    · have : ∀ x ∈ ['<', '@', '&'], x ∉ TEMPLATE_ROLE_PING := by decide
      exact this c hc
    · exact hdig c (mem_natDigitsAux_digits (id + 1) id c hc)
    · have : ∀ x ∈ ['>'], x ∉ TEMPLATE_ROLE_PING := by decide
      exact this c hc

/-- No character of the mention/fallback text occurs in the resource
placeholder token. -/
theorem mem_role_ping_not_res (role : Option Nat) :
    ∀ c ∈ role_ping_of role, c ∉ TEMPLATE_RESOURCE_NAME := by
  cases role with
  | none => decide
  | some id =>
    intro c hc
    simp only [role_ping_of, List.mem_append] at hc
    have hdig : ∀ x ∈ ['0', '1', '2', '3', '4', '5', '6', '7', '8', '9'],
        x ∉ TEMPLATE_RESOURCE_NAME := by decide
    rcases hc with (hc | hc) | hc
    · have : ∀ x ∈ ['<', '@', '&'], x ∉ TEMPLATE_RESOURCE_NAME := by decide
      exact this c hc
    · exact hdig c (mem_natDigitsAux_digits (id + 1) id c hc)
    · have : ∀ x ∈ ['>'], x ∉ TEMPLATE_RESOURCE_NAME := by decide
      exact this c hc

/-- The mention/fallback text is never empty. -/
theorem role_ping_of_ne_nil (role : Option Nat) : role_ping_of role ≠ [] := by
  cases role with
  | none => decide
  | some id => simp [role_ping_of]

/-- C8 counterexample: with resource display name `"%%RESOURCE%%"`, the
substituted output still contains the literal resource placeholder token
— the "no literal placeholder tokens" guarantee fails for names that
contain (or recreate) a placeholder. -/
theorem c8_counterexample :
    occursIn TEMPLATE_RESOURCE_NAME
      (replace_templates TEMPLATE_RESOURCE_NAME TEMPLATE_RESOURCE_NAME
        none) :=
  ⟨[], [], by decide⟩

/-- C8 amended: template substitution replaces the leftmost
non-overlapping occurrences of `%%RESOURCE%%` by the display name, then
of `%%ROLE%%` by the role mention `<@&id>` or the fallback word; the
output never contains a literal `%%ROLE%%` token, and it contains no
literal `%%RESOURCE%%` token provided the display name is non-empty and
shares no character with that token (not guaranteed for arbitrary
names); in particular, template `"%%RESOURCE%% is back, %%ROLE%%!"` with
name `"API"` and role id 42 yields `"API is back, <@&42>!"`, and with no
role yields the fallback `"API is back, people!"`. -/
theorem c8_template_substitution_amended (m name : List Char)
    (role : Option Nat) (hname : name ≠ [])
    (hdisj : ∀ c ∈ name, c ∉ TEMPLATE_RESOURCE_NAME) :
    (∀ (m' name' : List Char) (role' : Option Nat),
      ¬ occursIn TEMPLATE_ROLE_PING (replace_templates m' name' role'))
    ∧ ¬ occursIn TEMPLATE_RESOURCE_NAME (replace_templates m name role)
    ∧ replace_templates "%%RESOURCE%% is back, %%ROLE%%!".data "API".data
        (some 42) = "API is back, <@&42>!".data
    ∧ replace_templates "%%RESOURCE%% is back, %%ROLE%%!".data "API".data
        none = "API is back, people!".data := by
  refine ⟨?_, ?_, by decide, by decide⟩
  · intro m' name' role'
    unfold replace_templates replaceAll
    exact not_occursIn_replaceAllAux TEMPLATE_ROLE_PING
      (role_ping_of role') (by decide) (role_ping_of_ne_nil role')
      (mem_role_ping_not_role role') _ _ (le_refl _)
  · unfold replace_templates replaceAll
    apply not_occursIn_replaceAllAux_of_not TEMPLATE_RESOURCE_NAME
      TEMPLATE_ROLE_PING (role_ping_of role) (by decide)
      (role_ping_of_ne_nil role) (mem_role_ping_not_res role)
    exact not_occursIn_replaceAllAux TEMPLATE_RESOURCE_NAME name
      (by decide) hname hdisj _ _ (le_refl _)

/-- C8 amended, witness at the Scenario E inputs: name `"API"` is
non-empty, shares no character with the resource token, and the output
contains no resource token. -/
theorem c8_template_substitution_amended_witness :
    ¬ occursIn TEMPLATE_RESOURCE_NAME
      (replace_templates "%%RESOURCE%% is back, %%ROLE%%!".data "API".data
        (some 42)) :=
  (c8_template_substitution_amended "%%RESOURCE%% is back, %%ROLE%%!".data
    "API".data (some 42) (by decide) (by decide)).2.1
